import Mathlib

/-!
Shallow embedding of the chemetk core: the VLE interpolation model
(chemetk/thermo/vle.py, class VLE) and the McCabe-Thiele stage calculator
(chemetk/unit_ops/distillation.py, class McCabeThiele).

Modelling conventions:
* Python floats are modelled by ℚ.
* The NaN sentinel returned by scipy's interp1d with bounds_error=False and
  fill_value=nan is modelled by `none` (the interpolant returns `Option ℚ`).
* A raised Python exception (ZeroDivisionError in a division, ValueError for a
  bad direction argument) is modelled by `none` / `Except.error`.
* scipy's cubic interpolation itself is external library code, not part of the
  repository; its in-range values are abstracted as an arbitrary function
  passed as the `cubic` parameter.  The out-of-range behaviour (the part the
  repository's constructor fixes through bounds_error=False, fill_value=nan)
  is modelled exactly.
* The stepping algorithms query the equilibrium model through the four maps
  they actually call; those maps are abstracted as total functions ℚ → ℚ in
  `VLEFuns` (the stage-stepping claims hold for every choice of these maps).
-/

namespace Chemetk

/-- One record of the tabulated VLE data: an entry of `data_points` in
vle.py, holding temperature, liquid fraction x, vapor fraction y and an
optional relative volatility alpha. -/
structure VLEPoint where
  temp : ℚ
  x : ℚ
  y : ℚ
  alpha : Option ℚ
deriving DecidableEq, Repr

/-- Smallest sample of an interpolation axis (`none` for an empty axis). -/
def axisMin : List ℚ → Option ℚ
  | [] => none
  | a :: t => some (t.foldl min a)

/-- Largest sample of an interpolation axis (`none` for an empty axis). -/
def axisMax : List ℚ → Option ℚ
  | [] => none
  | a :: t => some (t.foldl max a)

/-- Model of `scipy.interpolate.interp1d(xs, ys, kind='cubic',
bounds_error=False, fill_value=np.nan)` as used in VLE.__init__
(vle.py lines 40-63): inside the sampled interval the interpolant's value is
given by the abstract in-range interpolation function `spline`; strictly
outside `[min xs, max xs]` the call yields the NaN sentinel, modelled as
`none`. -/
def interp1dNanFill (xs : List ℚ) (spline : ℚ → ℚ) (v : ℚ) : Option ℚ :=
  match axisMin xs, axisMax xs with
  | some lo, some hi => if v < lo ∨ hi < v then none else some (spline v)
  | _, _ => none

/-- The constructed VLE object of vle.py: the extracted data columns and the
eight interpolating query maps (each `Option`-valued, `none` being the NaN
sentinel). -/
structure VLE where
  temps : List ℚ
  x_values : List ℚ
  y_values : List ℚ
  has_alpha : Bool
  alpha_temps : List ℚ
  alpha_values : List ℚ
  alpha_x_values : List ℚ
  temp_from_x : ℚ → Option ℚ
  temp_from_y : ℚ → Option ℚ
  y_from_x : ℚ → Option ℚ
  x_from_y : ℚ → Option ℚ
  x_from_temp : ℚ → Option ℚ
  y_from_temp : ℚ → Option ℚ
  alpha_from_x : ℚ → Option ℚ
  alpha_from_temp : ℚ → Option ℚ

/-- Embedding of `VLE.__init__` (vle.py lines 11-69).  `cubic xs ys` stands
for the in-range values of the cubic interpolant scipy builds over the data
pair `(xs, ys)`; the constructor wires eight such interpolants with the NaN
fill behaviour, and replaces the two alpha maps by always-NaN lambdas when
fewer than two alpha samples exist. -/
def VLE.init (cubic : List ℚ → List ℚ → ℚ → ℚ) (points : List VLEPoint) : VLE :=
  let temps := points.map (·.temp)
  let y_values := points.map (·.y)
  let x_values := points.map (·.x)
  let alpha_points := points.filter (fun p => p.alpha.isSome)
  let has_alpha : Bool := decide (alpha_points.length > 0)
  let alpha_temps := alpha_points.map (·.temp)
  let alpha_values := alpha_points.filterMap (·.alpha)
  let alpha_x_values := alpha_points.map (·.x)
  { temps := temps
    x_values := x_values
    y_values := y_values
    has_alpha := has_alpha
    alpha_temps := alpha_temps
    alpha_values := alpha_values
    alpha_x_values := alpha_x_values
    temp_from_x := interp1dNanFill x_values (cubic x_values temps)
    temp_from_y := interp1dNanFill y_values (cubic y_values temps)
    y_from_x := interp1dNanFill x_values (cubic x_values y_values)
    x_from_y := interp1dNanFill y_values (cubic y_values x_values)
    x_from_temp := interp1dNanFill temps (cubic temps x_values)
    y_from_temp := interp1dNanFill temps (cubic temps y_values)
    alpha_from_x :=
      if has_alpha then
        if alpha_x_values.length > 1 then
          interp1dNanFill alpha_x_values (cubic alpha_x_values alpha_values)
        else fun _ => none
      else fun _ => none
    alpha_from_temp :=
      if has_alpha then
        if alpha_x_values.length > 1 then
          interp1dNanFill alpha_temps (cubic alpha_temps alpha_values)
        else fun _ => none
      else fun _ => none }

/-- vle.py `get_temperature_by_x`. -/
def VLE.get_temperature_by_x (v : VLE) (x : ℚ) : Option ℚ := v.temp_from_x x

/-- vle.py `get_temperature_by_y`. -/
def VLE.get_temperature_by_y (v : VLE) (y : ℚ) : Option ℚ := v.temp_from_y y

/-- vle.py `get_y_by_x`. -/
def VLE.get_y_by_x (v : VLE) (x : ℚ) : Option ℚ := v.y_from_x x

/-- vle.py `get_x_by_y`. -/
def VLE.get_x_by_y (v : VLE) (y : ℚ) : Option ℚ := v.x_from_y y

/-- vle.py `get_x_by_temp`. -/
def VLE.get_x_by_temp (v : VLE) (t : ℚ) : Option ℚ := v.x_from_temp t

/-- vle.py `get_y_by_temp`. -/
def VLE.get_y_by_temp (v : VLE) (t : ℚ) : Option ℚ := v.y_from_temp t

/-- vle.py `get_alpha_by_x`. -/
def VLE.get_alpha_by_x (v : VLE) (x : ℚ) : Option ℚ := v.alpha_from_x x

/-- vle.py `get_alpha_by_temp`. -/
def VLE.get_alpha_by_temp (v : VLE) (t : ℚ) : Option ℚ := v.alpha_from_temp t

/-- Strict out-of-domain condition for an interpolation axis: the query value
lies strictly outside the `[min_sample, max_sample]` interval of the axis. -/
def outsideRange (axis : List ℚ) (v : ℚ) : Prop :=
  ∃ lo hi, axisMin axis = some lo ∧ axisMax axis = some hi ∧ (v < lo ∨ hi < v)

/-- The four equilibrium-model query maps that the stage-stepping code of
distillation.py actually calls (get_temperature_by_x, get_alpha_by_x,
get_y_by_x, get_x_by_y), abstracted as total functions.  The stage-stepping
claims are proved for every choice of these maps. -/
structure VLEFuns where
  tempByX : ℚ → ℚ
  alphaByX : ℚ → ℚ
  yByX : ℚ → ℚ
  xByY : ℚ → ℚ

/-- One stage record of a top-down run (the dict built in
`_calculate_from_top`, distillation.py lines 129-137).  The Python key
'section' is the Lean field `sect` (the word is a Lean keyword). -/
structure TopStage where
  stage : Nat
  x_liquid : ℚ
  y_vapor : ℚ
  temperature : ℚ
  relative_volatility : ℚ
  efficiency : ℚ
  sect : String
deriving DecidableEq, Repr

/-- One stage record of a bottom-up run (the dict built in
`_calculate_from_bottom`, distillation.py lines 219-228). -/
structure BottomStage where
  stage : Nat
  x_liquid : ℚ
  y_vapor_actual : ℚ
  y_vapor_equilibrium : ℚ
  temperature : ℚ
  relative_volatility : ℚ
  efficiency : ℚ
  sect : String
deriving DecidableEq, Repr

/-- The state of a constructed McCabeThiele object (distillation.py
lines 9-81): the column parameters and all derived attributes.  In
total-reflux mode the Python constructor never assigns `L`, `V`, `L_prime`,
`V_prime`; the embedding stores 0 there (those fields are read only in
regular mode). -/
structure McCabeThiele where
  x_D : ℚ
  x_W : ℚ
  x_F : ℚ
  q : ℚ
  R : ℚ
  D : ℚ
  F : ℚ
  W : ℚ
  total_reflux : Bool
  L : ℚ
  V : ℚ
  L_prime : ℚ
  V_prime : ℚ
  L_over_V : ℚ
  D_xD_over_V : ℚ
  L_prime_over_V_prime : ℚ
  W_xW_over_V_prime : ℚ
  x_intersect : ℚ
  y_intersect : ℚ
deriving DecidableEq, Repr

/-- Embedding of `McCabeThiele.__init__` (distillation.py lines 9-81).
`none` models a Python ZeroDivisionError raised by one of the constructor's
divisions; the guards appear in the order the Python statements execute.
The stored `vle` instance is not part of the state here: the methods that
use it receive the query maps explicitly. -/
def McCabeThiele.init (x_D x_W x_F q R D F W : ℚ) : Option McCabeThiele :=
  if F = 0 ∧ D = 0 ∧ W = 0 then
    some { x_D := x_D, x_W := x_W, x_F := x_F, q := q, R := R, D := D, F := F, W := W
           total_reflux := true
           L := 0, V := 0, L_prime := 0, V_prime := 0
           L_over_V := 1, D_xD_over_V := 0
           L_prime_over_V_prime := 1, W_xW_over_V_prime := 0
           x_intersect := x_F, y_intersect := x_F }
  else
    let L := R * D
    let V := (R + 1) * D
    let L_prime := L + q * F
    let V_prime := V - (1 - q) * F
    if R + 1 = 0 then none
    else
      let L_over_V := R / (R + 1)
      if V = 0 then none
      else
        let D_xD_over_V := D * x_D / V
        if V_prime = 0 then none
        else
          let L_prime_over_V_prime := L_prime / V_prime
          let W_xW_over_V_prime := W * x_W / V_prime
          if q = 1 then
            some { x_D := x_D, x_W := x_W, x_F := x_F, q := q, R := R, D := D, F := F, W := W
                   total_reflux := false
                   L := L, V := V, L_prime := L_prime, V_prime := V_prime
                   L_over_V := L_over_V, D_xD_over_V := D_xD_over_V
                   L_prime_over_V_prime := L_prime_over_V_prime
                   W_xW_over_V_prime := W_xW_over_V_prime
                   x_intersect := x_F
                   y_intersect := L_over_V * x_F + D_xD_over_V }
          else if q = 0 then
            if L_over_V = 0 then none
            else
              let x_int := (x_F - D_xD_over_V) / L_over_V
              some { x_D := x_D, x_W := x_W, x_F := x_F, q := q, R := R, D := D, F := F, W := W
                     total_reflux := false
                     L := L, V := V, L_prime := L_prime, V_prime := V_prime
                     L_over_V := L_over_V, D_xD_over_V := D_xD_over_V
                     L_prime_over_V_prime := L_prime_over_V_prime
                     W_xW_over_V_prime := W_xW_over_V_prime
                     x_intersect := x_int
                     y_intersect := L_over_V * x_int + D_xD_over_V }
          else
            let m_q := q / (q - 1)
            let b_q := x_F - m_q * x_F
            if m_q - L_over_V = 0 then none
            else
              let x_int := (D_xD_over_V - b_q) / (m_q - L_over_V)
              some { x_D := x_D, x_W := x_W, x_F := x_F, q := q, R := R, D := D, F := F, W := W
                     total_reflux := false
                     L := L, V := V, L_prime := L_prime, V_prime := V_prime
                     L_over_V := L_over_V, D_xD_over_V := D_xD_over_V
                     L_prime_over_V_prime := L_prime_over_V_prime
                     W_xW_over_V_prime := W_xW_over_V_prime
                     x_intersect := x_int
                     y_intersect := L_over_V * x_int + D_xD_over_V }

/-- distillation.py `_get_section` (lines 287-296): the section label of a
liquid composition; the source's string labels are kept
("全回流段" = total-reflux, "精馏段" = rectifying, "提馏段" = stripping). -/
def McCabeThiele.get_section (c : McCabeThiele) (x : ℚ) : String :=
  if c.total_reflux then "全回流段"
  else if x > c.x_intersect then "精馏段"
  else "提馏段"

/-- The operating-line branch of the top-down loop body (distillation.py
lines 144-157): the ideal vapor composition sent up from the stage whose
liquid composition is `x`. -/
def McCabeThiele.nextYTop (c : McCabeThiele) (x : ℚ) : ℚ :=
  if c.total_reflux then x
  else if x > c.x_intersect then c.L_over_V * x + c.D_xD_over_V
  else c.L_prime_over_V_prime * x - c.W_xW_over_V_prime

/-- The operating-line branch of the bottom-up loop body (distillation.py
lines 235-248): the next liquid composition obtained by inverting the active
operating line at the current actual vapor composition `ya` (current liquid
composition `x`).  `none` models the ZeroDivisionError raised when the
active line's liquid flow is zero. -/
def McCabeThiele.nextXBottom (c : McCabeThiele) (ya x : ℚ) : Option ℚ :=
  if c.total_reflux then some ya
  else if x ≤ c.x_intersect then
    if c.L_prime = 0 then none
    else some ((c.V_prime * ya + c.W * c.x_W) / c.L_prime)
  else
    if c.L = 0 then none
    else some ((c.V * ya - c.D * c.x_D) / c.L)

/-- The stage record appended by one iteration of the top-down loop
(distillation.py lines 129-138); the efficiency of the very first stage is
hardcoded to 1 (line 135). -/
def McCabeThiele.topStageRecord (c : McCabeThiele) (vle : VLEFuns) (E_ml : ℚ)
    (n : Nat) (x y : ℚ) : TopStage :=
  { stage := n, x_liquid := x, y_vapor := y
    temperature := vle.tempByX x, relative_volatility := vle.alphaByX x
    efficiency := if n > 1 then E_ml else 1
    sect := c.get_section x }

/-- The final crossing record of a top-down run (distillation.py lines
179-187); it always carries the caller-supplied efficiency. -/
def McCabeThiele.finalTopRecord (c : McCabeThiele) (vle : VLEFuns) (E_ml : ℚ)
    (n : Nat) (x y : ℚ) : TopStage :=
  { stage := n, x_liquid := x, y_vapor := y
    temperature := vle.tempByX x, relative_volatility := vle.alphaByX x
    efficiency := E_ml, sect := c.get_section x }

/-- The Murphree-corrected liquid composition of the next stage down
(distillation.py lines 159-165): invert the operating-line vapor through
the equilibrium curve and apply the liquid-phase efficiency. -/
def McCabeThiele.topNextX (c : McCabeThiele) (vle : VLEFuns) (E_ml : ℚ) (x : ℚ) : ℚ :=
  x - E_ml * (x - vle.xByY (c.nextYTop x))

/-- The while-loop of `_calculate_from_top` (distillation.py lines 127-175).
`fuel` is the number of loop iterations the 150-stage safety bound still
permits: the Python loop breaks when the incremented stage counter exceeds
150, i.e. after at most 150 executed iterations, so the loop is started with
`fuel = 150` and each iteration consumes one unit.  Returns the appended
stage records together with the final stage counter and the final
`(current_x, current_y)` state. -/
def McCabeThiele.topLoop (c : McCabeThiele) (vle : VLEFuns) (E_ml : ℚ) :
    Nat → Nat → ℚ → ℚ → List TopStage → List TopStage × Nat × ℚ × ℚ
  | 0, n, x, y, acc => (acc, n, x, y)
  | fuel + 1, n, x, y, acc =>
    if x > c.x_W then
      c.topLoop vle E_ml fuel (n + 1) (c.topNextX vle E_ml x) (c.nextYTop x)
        (acc ++ [c.topStageRecord vle E_ml n x y])
    else (acc, n, x, y)

/-- The top-down loop as started by `_calculate_from_top`: from
`(x, y) = (x_D, x_D)`, stage counter 1, no records, 150 iterations of fuel. -/
def McCabeThiele.topLoopRun (c : McCabeThiele) (vle : VLEFuns) (E_ml : ℚ) :
    List TopStage × Nat × ℚ × ℚ :=
  c.topLoop vle E_ml 150 1 c.x_D c.x_D []

/-- distillation.py `_calculate_from_top` (lines 106-193): run the top-down
loop, then append the final crossing record when the loop produced at least
one record and the target bottoms composition was reached. -/
def McCabeThiele.calculate_from_top (c : McCabeThiele) (vle : VLEFuns) (E_ml : ℚ) :
    List TopStage :=
  match c.topLoopRun vle E_ml with
  | (stages, n, x, y) =>
    if stages ≠ [] ∧ x ≤ c.x_W then
      stages ++ [c.finalTopRecord vle E_ml n x y]
    else stages

/-- The stage record appended by one iteration of the bottom-up loop
(distillation.py lines 219-229); the efficiency of the very first stage is
hardcoded to 1 (line 226). -/
def McCabeThiele.bottomStageRecord (c : McCabeThiele) (vle : VLEFuns) (E_mv : ℚ)
    (n : Nat) (x ya ye : ℚ) : BottomStage :=
  { stage := n, x_liquid := x, y_vapor_actual := ya, y_vapor_equilibrium := ye
    temperature := vle.tempByX x, relative_volatility := vle.alphaByX x
    efficiency := if n > 1 then E_mv else 1
    sect := c.get_section x }

/-- The final crossing record of a bottom-up run (distillation.py lines
270-279). -/
def McCabeThiele.finalBottomRecord (c : McCabeThiele) (vle : VLEFuns) (E_mv : ℚ)
    (n : Nat) (x ya ye : ℚ) : BottomStage :=
  { stage := n, x_liquid := x, y_vapor_actual := ya, y_vapor_equilibrium := ye
    temperature := vle.tempByX x, relative_volatility := vle.alphaByX x
    efficiency := E_mv, sect := c.get_section x }

/-- The while-loop of `_calculate_from_bottom` (distillation.py lines
217-266), with the same fuel discipline as `topLoop`.  State: stage counter,
current liquid composition, current actual and equilibrium vapor
compositions.  `none` models a ZeroDivisionError raised inside the loop. -/
def McCabeThiele.bottomLoop (c : McCabeThiele) (vle : VLEFuns) (E_mv : ℚ) :
    Nat → Nat → ℚ → ℚ → ℚ → List BottomStage →
      Option (List BottomStage × Nat × ℚ × ℚ × ℚ)
  | 0, n, x, ya, ye, acc => some (acc, n, x, ya, ye)
  | fuel + 1, n, x, ya, ye, acc =>
    if ya < c.x_D then
      match c.nextXBottom ya x with
      | none => none
      | some next_x =>
        c.bottomLoop vle E_mv fuel (n + 1) next_x
          (ya + E_mv * (vle.yByX next_x - ya)) (vle.yByX next_x)
          (acc ++ [c.bottomStageRecord vle E_mv n x ya ye])
    else some (acc, n, x, ya, ye)

/-- The bottom-up loop as started by `_calculate_from_bottom`: from
`x = x_W`, with both vapor compositions initialized to the equilibrium
vapor at `x_W` (the reboiler is taken as an equilibrium stage). -/
def McCabeThiele.bottomLoopRun (c : McCabeThiele) (vle : VLEFuns) (E_mv : ℚ) :
    Option (List BottomStage × Nat × ℚ × ℚ × ℚ) :=
  c.bottomLoop vle E_mv 150 1 c.x_W (vle.yByX c.x_W) (vle.yByX c.x_W) []

/-- distillation.py `_calculate_from_bottom` (lines 195-285): run the
bottom-up loop, then append the final crossing record when appropriate. -/
def McCabeThiele.calculate_from_bottom (c : McCabeThiele) (vle : VLEFuns) (E_mv : ℚ) :
    Option (List BottomStage) :=
  match c.bottomLoopRun vle E_mv with
  | none => none
  | some (stages, n, x, ya, ye) =>
    some <|
      if stages ≠ [] ∧ ya ≥ c.x_D then
        stages ++ [c.finalBottomRecord vle E_mv n x ya ye]
      else stages

/-- The search loop of `_calculate_decimal_stages` for a top-down run
(distillation.py lines 309-322): walk the adjacent pairs of liquid
compositions, and at the first pair bracketing the target `x_W` return the
0-based index of the pair's first element plus the interpolated fraction.
`i` is the absolute index of the head of the remaining list. -/
def bracketTop (x_W : ℚ) : Nat → List ℚ → Option ℚ
  | i, a :: b :: rest =>
    if a ≥ x_W ∧ x_W ≥ b then some ((i : ℚ) + (a - x_W) / (a - b))
    else bracketTop x_W (i + 1) (b :: rest)
  | _, _ => none

/-- The search loop of `_calculate_decimal_stages` for a bottom-up run
(distillation.py lines 326-337): same walk over the actual vapor
compositions, bracketing the target `x_D`. -/
def bracketBottom (x_D : ℚ) : Nat → List ℚ → Option ℚ
  | i, a :: b :: rest =>
    if a ≤ x_D ∧ x_D ≤ b then some ((i : ℚ) + (x_D - a) / (b - a))
    else bracketBottom x_D (i + 1) (b :: rest)
  | _, _ => none

/-- Whether some adjacent pair of the list brackets the top-down target
(key_i ≥ x_W ≥ key_(i+1)); a decidable helper used to state "no bracketing
pair was found before/at all". -/
def hasBracketTop (x_W : ℚ) : List ℚ → Bool
  | a :: b :: rest =>
    (decide (a ≥ x_W) && decide (x_W ≥ b)) || hasBracketTop x_W (b :: rest)
  | _ => false

/-- Whether some adjacent pair of the list brackets the bottom-up target
(key_i ≤ x_D ≤ key_(i+1)). -/
def hasBracketBottom (x_D : ℚ) : List ℚ → Bool
  | a :: b :: rest =>
    (decide (a ≤ x_D) && decide (x_D ≤ b)) || hasBracketBottom x_D (b :: rest)
  | _ => false

/-- distillation.py `_calculate_decimal_stages` (lines 298-341),
specialized to calculation_direction = 'top': fewer than two records, or no
bracketing pair, falls back to the integer stage count (the ladder length);
otherwise the first bracketing pair of liquid compositions gives the
interpolated fractional stage count. -/
def McCabeThiele.calculate_decimal_stages_top (c : McCabeThiele) (stages : List TopStage) : ℚ :=
  if stages.length < 2 then (stages.length : ℚ)
  else
    match bracketTop c.x_W 0 (stages.map (·.x_liquid)) with
    | some d => d
    | none => (stages.length : ℚ)

/-- distillation.py `_calculate_decimal_stages` (lines 298-341),
specialized to calculation_direction = 'bottom': the walk runs over the
actual vapor compositions and brackets `x_D`. -/
def McCabeThiele.calculate_decimal_stages_bottom (c : McCabeThiele) (stages : List BottomStage) : ℚ :=
  if stages.length < 2 then (stages.length : ℚ)
  else
    match bracketBottom c.x_D 0 (stages.map (·.y_vapor_actual)) with
    | some d => d
    | none => (stages.length : ℚ)

/-- A StageLadder returned by `calculate_stages`: the record shape depends
on the direction of the run. -/
inductive Ladder where
  | top : List TopStage → Ladder
  | bottom : List BottomStage → Ladder
deriving DecidableEq, Repr

/-- The distinguishable failure modes of `calculate_stages`:
`invalidDirection` models the ValueError "start_from must be 'top' or
'bottom'" (distillation.py line 98); `divisionByZero` models a Python
ZeroDivisionError raised during bottom-up stepping. -/
inductive CalcErr where
  | invalidDirection
  | divisionByZero
deriving DecidableEq, Repr

/-- distillation.py `calculate_stages` (lines 83-104): dispatch on
`start_from`, rejecting anything other than "top" or "bottom" before any
stepping; optionally pair the ladder with the fractional stage count. -/
def McCabeThiele.calculate_stages (c : McCabeThiele) (vle : VLEFuns)
    (start_from : String) (murphree_efficiency : ℚ) (return_decimal_stages : Bool) :
    Except CalcErr (Ladder × Option ℚ) :=
  if start_from = "top" then
    let result := c.calculate_from_top vle murphree_efficiency
    .ok (.top result,
      if return_decimal_stages then some (c.calculate_decimal_stages_top result) else none)
  else if start_from = "bottom" then
    match c.calculate_from_bottom vle murphree_efficiency with
    | none => .error .divisionByZero
    | some result =>
      .ok (.bottom result,
        if return_decimal_stages then some (c.calculate_decimal_stages_bottom result) else none)
  else .error .invalidDirection

/-! Concrete objects used by the witness and counterexample theorems. -/

/-- The McCabeThiele state produced by `McCabeThiele.init (9/10) (1/10)
(1/2) 1 1 0 0 0`: a total-reflux column with x_D = 0.9 and x_W = 0.1. -/
def cTR : McCabeThiele :=
  { x_D := 9/10, x_W := 1/10, x_F := 1/2, q := 1, R := 1, D := 0, F := 0, W := 0
    total_reflux := true
    L := 0, V := 0, L_prime := 0, V_prime := 0
    L_over_V := 1, D_xD_over_V := 0, L_prime_over_V_prime := 1, W_xW_over_V_prime := 0
    x_intersect := 1/2, y_intersect := 1/2 }

/-- The McCabeThiele state produced by `McCabeThiele.init (9/10) (1/10)
(1/2) (1/2) 2 1 2 1`: a regular-mode column with a general (q = 1/2)
feed line. -/
def c3spec : McCabeThiele :=
  { x_D := 9/10, x_W := 1/10, x_F := 1/2, q := 1/2, R := 2, D := 1, F := 2, W := 1
    total_reflux := false
    L := 2, V := 3, L_prime := 3, V_prime := 2
    L_over_V := 2/3, D_xD_over_V := 3/10
    L_prime_over_V_prime := 3/2, W_xW_over_V_prime := 1/20
    x_intersect := 21/50, y_intersect := 29/50 }

/-- The McCabeThiele state produced by `McCabeThiele.init (9/10) (1/5)
(1/2) 1 1 1 2 1`: a regular-mode column with a saturated-liquid (q = 1)
feed, whose rectifying and stripping operating lines take different values
at the switch point. -/
def c6spec : McCabeThiele :=
  { x_D := 9/10, x_W := 1/5, x_F := 1/2, q := 1, R := 1, D := 1, F := 2, W := 1
    total_reflux := false
    L := 1, V := 2, L_prime := 3, V_prime := 2
    L_over_V := 1/2, D_xD_over_V := 9/20
    L_prime_over_V_prime := 3/2, W_xW_over_V_prime := 1/10
    x_intersect := 1/2, y_intersect := 7/10 }

/-- A total-reflux column state with target bottoms composition
x_W = 0.5, used with the fractional-stage example ladder. -/
def c4spec : McCabeThiele := { cTR with x_W := 1/2 }

/-- A total-reflux column state whose distillate target is already below
the bottoms target (x_D = 1/20 ≤ x_W = 1/10). -/
def c10spec : McCabeThiele := { cTR with x_D := 1/20 }

/-- Simple concrete equilibrium query maps: constant temperature and
volatility, equilibrium diagonal y(x) = x, and x(y) = y/2. -/
def vleSimple : VLEFuns :=
  { tempByX := fun _ => 100, alphaByX := fun _ => 2
    yByX := fun x => x, xByY := fun y => y / 2 }

/-- Concrete equilibrium query maps whose vapor map is constantly 1 (the
bottom-up run then starts at its target immediately). -/
def vleOne : VLEFuns :=
  { tempByX := fun _ => 100, alphaByX := fun _ => 2
    yByX := fun _ => 1, xByY := fun y => y / 2 }

/-- Concrete equilibrium query maps whose inverse map is constantly -2
(the top-down run then crosses its target after a single step even with a
fractional efficiency). -/
def vleLow : VLEFuns :=
  { tempByX := fun _ => 100, alphaByX := fun _ => 2
    yByX := fun x => x, xByY := fun _ => -2 }

/-- Build a top-stage record carrying a given liquid composition (the other
fields are irrelevant to the fractional-stage computation). -/
def mkTS (x : ℚ) : TopStage :=
  { stage := 0, x_liquid := x, y_vapor := 0, temperature := 0
    relative_volatility := 0, efficiency := 1, sect := "" }

/-- Build a bottom-stage record carrying a given actual vapor
composition. -/
def mkBS (y : ℚ) : BottomStage :=
  { stage := 0, x_liquid := 0, y_vapor_actual := y, y_vapor_equilibrium := y
    temperature := 0, relative_volatility := 0, efficiency := 1, sect := "" }

/-- The StageLadder of the spec's fractional-stage bracketing example:
liquid compositions 0.95, 0.80, 0.60, 0.40, 0.05. -/
def c4ladder : List TopStage :=
  [mkTS (95/100), mkTS (80/100), mkTS (60/100), mkTS (40/100), mkTS (5/100)]

/-- Concrete equilibrium query maps whose vapor map shifts the liquid
composition up by one half (a bottom-up run from `cTR` then needs two
iterations before crossing the distillate target). -/
def vleShift : VLEFuns :=
  { tempByX := fun _ => 100, alphaByX := fun _ => 2
    yByX := fun x => x + 1/2, xByY := fun y => y / 2 }

/-- A two-point VLE dataset without relative-volatility samples, for the
out-of-domain witness. -/
def vlePoints : List VLEPoint :=
  [{ temp := 100, x := 0, y := 0, alpha := none },
   { temp := 80, x := 1, y := 1, alpha := none }]

/-- A trivial in-range interpolation behaviour used to instantiate the
abstract cubic interpolant. -/
def cubic0 : List ℚ → List ℚ → ℚ → ℚ := fun _ _ _ => 0

/-- A bottom-up ladder with actual vapor compositions 0.1, 0.75, 0.95,
whose pair (0.75, 0.95) brackets the target x_D = 0.9 at index 1. -/
def c4bladder : List BottomStage := [mkBS (1/10), mkBS (3/4), mkBS (19/20)]

/-! Shared lemmas about the stepping loops. -/

theorem topLoop_zero (c : McCabeThiele) (vle : VLEFuns) (E : ℚ) (n : Nat) (x y : ℚ)
    (acc : List TopStage) : c.topLoop vle E 0 n x y acc = (acc, n, x, y) := rfl

theorem topLoop_succ (c : McCabeThiele) (vle : VLEFuns) (E : ℚ) (fuel n : Nat) (x y : ℚ)
    (acc : List TopStage) :
    c.topLoop vle E (fuel + 1) n x y acc =
      if x > c.x_W then
        c.topLoop vle E fuel (n + 1) (c.topNextX vle E x) (c.nextYTop x)
          (acc ++ [c.topStageRecord vle E n x y])
      else (acc, n, x, y) := rfl

theorem bottomLoop_zero (c : McCabeThiele) (vle : VLEFuns) (E : ℚ) (n : Nat) (x ya ye : ℚ)
    (acc : List BottomStage) :
    c.bottomLoop vle E 0 n x ya ye acc = some (acc, n, x, ya, ye) := rfl

theorem bottomLoop_succ (c : McCabeThiele) (vle : VLEFuns) (E : ℚ) (fuel n : Nat)
    (x ya ye : ℚ) (acc : List BottomStage) :
    c.bottomLoop vle E (fuel + 1) n x ya ye acc =
      if ya < c.x_D then
        match c.nextXBottom ya x with
        | none => none
        | some next_x =>
          c.bottomLoop vle E fuel (n + 1) next_x
            (ya + E * (vle.yByX next_x - ya)) (vle.yByX next_x)
            (acc ++ [c.bottomStageRecord vle E n x ya ye])
      else some (acc, n, x, ya, ye) := rfl

theorem topLoop_length (c : McCabeThiele) (vle : VLEFuns) (E : ℚ) :
    ∀ (fuel n : Nat) (x y : ℚ) (acc : List TopStage),
      (c.topLoop vle E fuel n x y acc).1.length ≤ acc.length + fuel := by
  intro fuel
  induction fuel with
  | zero => intro n x y acc; simp [topLoop_zero]
  | succ fuel ih =>
    intro n x y acc
    rw [topLoop_succ]
    split
    · refine le_trans (ih (n + 1) (c.topNextX vle E x) (c.nextYTop x) _) ?_
      simp
      omega
    · simp

theorem topLoop_prefix (c : McCabeThiele) (vle : VLEFuns) (E : ℚ) :
    ∀ (fuel n : Nat) (x y : ℚ) (acc : List TopStage),
      ∃ t, (c.topLoop vle E fuel n x y acc).1 = acc ++ t := by
  intro fuel
  induction fuel with
  | zero => intro n x y acc; exact ⟨[], by simp [topLoop_zero]⟩
  | succ fuel ih =>
    intro n x y acc
    rw [topLoop_succ]
    split
    · obtain ⟨t, ht⟩ := ih (n + 1) (c.topNextX vle E x) (c.nextYTop x)
        (acc ++ [c.topStageRecord vle E n x y])
      exact ⟨c.topStageRecord vle E n x y :: t, by rw [ht, List.append_assoc]; rfl⟩
    · exact ⟨[], by simp⟩

theorem bottomLoop_length (c : McCabeThiele) (vle : VLEFuns) (E : ℚ) :
    ∀ (fuel n : Nat) (x ya ye : ℚ) (acc : List BottomStage) res,
      c.bottomLoop vle E fuel n x ya ye acc = some res →
      res.1.length ≤ acc.length + fuel := by
  intro fuel
  induction fuel with
  | zero =>
    intro n x ya ye acc res h
    rw [bottomLoop_zero] at h
    cases h
    simp
  | succ fuel ih =>
    intro n x ya ye acc res h
    rw [bottomLoop_succ] at h
    split at h
    · cases hnx : c.nextXBottom ya x with
      | none => rw [hnx] at h; cases h
      | some nx =>
        rw [hnx] at h
        refine le_trans (ih (n + 1) nx _ _ _ res h) ?_
        simp
        omega
    · cases h
      simp

theorem bottomLoop_prefix (c : McCabeThiele) (vle : VLEFuns) (E : ℚ) :
    ∀ (fuel n : Nat) (x ya ye : ℚ) (acc : List BottomStage) res,
      c.bottomLoop vle E fuel n x ya ye acc = some res →
      ∃ t, res.1 = acc ++ t := by
  intro fuel
  induction fuel with
  | zero =>
    intro n x ya ye acc res h
    rw [bottomLoop_zero] at h
    cases h
    exact ⟨[], by simp⟩
  | succ fuel ih =>
    intro n x ya ye acc res h
    rw [bottomLoop_succ] at h
    split at h
    · cases hnx : c.nextXBottom ya x with
      | none => rw [hnx] at h; cases h
      | some nx =>
        rw [hnx] at h
        obtain ⟨t, ht⟩ := ih (n + 1) nx _ _ _ res h
        exact ⟨c.bottomStageRecord vle E n x ya ye :: t, by rw [ht, List.append_assoc]; rfl⟩
    · cases h
      exact ⟨[], by simp⟩

theorem calculate_from_top_eq (c : McCabeThiele) (vle : VLEFuns) (E : ℚ) :
    c.calculate_from_top vle E =
      if (c.topLoopRun vle E).1 ≠ [] ∧ (c.topLoopRun vle E).2.2.1 ≤ c.x_W then
        (c.topLoopRun vle E).1 ++
          [c.finalTopRecord vle E (c.topLoopRun vle E).2.1 (c.topLoopRun vle E).2.2.1
            (c.topLoopRun vle E).2.2.2]
      else (c.topLoopRun vle E).1 := rfl

theorem calculate_from_bottom_eq (c : McCabeThiele) (vle : VLEFuns) (E : ℚ)
    (res : List BottomStage × Nat × ℚ × ℚ × ℚ) (h : c.bottomLoopRun vle E = some res) :
    c.calculate_from_bottom vle E =
      some (if res.1 ≠ [] ∧ res.2.2.2.1 ≥ c.x_D then
        res.1 ++ [c.finalBottomRecord vle E res.2.1 res.2.2.1 res.2.2.2.1 res.2.2.2.2]
      else res.1) := by
  unfold McCabeThiele.calculate_from_bottom
  rw [h]

theorem get_section_tr (c : McCabeThiele) (h : c.total_reflux = true) (x : ℚ) :
    c.get_section x = "全回流段" := by
  simp [McCabeThiele.get_section, h]

theorem topLoop_all_sect (c : McCabeThiele) (vle : VLEFuns) (E : ℚ)
    (h : c.total_reflux = true) :
    ∀ (fuel n : Nat) (x y : ℚ) (acc : List TopStage),
      (acc.all fun r => r.sect == "全回流段") = true →
      (((c.topLoop vle E fuel n x y acc).1).all fun r => r.sect == "全回流段") = true := by
  intro fuel
  induction fuel with
  | zero => intro n x y acc hacc; simpa [topLoop_zero] using hacc
  | succ fuel ih =>
    intro n x y acc hacc
    rw [topLoop_succ]
    split
    · refine ih (n + 1) (c.topNextX vle E x) (c.nextYTop x) _ ?_
      simp only [List.all_append, List.all_cons, List.all_nil, hacc, Bool.true_and,
        Bool.and_true]
      simp [McCabeThiele.topStageRecord, get_section_tr c h]
    · exact hacc

theorem bottomLoop_tr_some (c : McCabeThiele) (vle : VLEFuns) (E : ℚ)
    (h : c.total_reflux = true) :
    ∀ (fuel n : Nat) (x ya ye : ℚ) (acc : List BottomStage),
      (acc.all fun r => r.sect == "全回流段") = true →
      ∃ res, c.bottomLoop vle E fuel n x ya ye acc = some res ∧
        (res.1.all fun r => r.sect == "全回流段") = true := by
  intro fuel
  induction fuel with
  | zero =>
    intro n x ya ye acc hacc
    exact ⟨(acc, n, x, ya, ye), bottomLoop_zero .., hacc⟩
  | succ fuel ih =>
    intro n x ya ye acc hacc
    rw [bottomLoop_succ]
    split
    · have hnx : c.nextXBottom ya x = some ya := by simp [McCabeThiele.nextXBottom, h]
      rw [hnx]
      refine ih (n + 1) ya _ _ _ ?_
      simp only [List.all_append, List.all_cons, List.all_nil, hacc, Bool.true_and,
        Bool.and_true]
      simp [McCabeThiele.bottomStageRecord, get_section_tr c h]
    · exact ⟨(acc, n, x, ya, ye), rfl, hacc⟩

theorem topLoop_eff (c : McCabeThiele) (vle : VLEFuns) (E : ℚ) :
    ∀ (fuel : Nat) (x y : ℚ) (acc : List TopStage),
      (∀ i r, acc.get? i = some r → r.efficiency = if i = 0 then 1 else E) →
      ∀ i r, ((c.topLoop vle E fuel (acc.length + 1) x y acc).1).get? i = some r →
        r.efficiency = if i = 0 then 1 else E := by
  intro fuel
  induction fuel with
  | zero =>
    intro x y acc hacc i r h
    rw [topLoop_zero] at h
    exact hacc i r h
  | succ fuel ih =>
    intro x y acc hacc i r h
    rw [topLoop_succ] at h
    split at h
    · have hlen : acc.length + 1 + 1 = (acc ++ [c.topStageRecord vle E (acc.length + 1) x y]).length + 1 := by
        simp
      rw [hlen] at h
      refine ih (c.topNextX vle E x) (c.nextYTop x) _ ?_ i r h
      intro j s hj
      by_cases hjl : j < acc.length
      · rw [List.get?_append hjl] at hj
        exact hacc j s hj
      · have hge : acc.length ≤ j := Nat.le_of_not_lt hjl
        rw [List.get?_append_right hge] at hj
        rcases Nat.lt_or_ge (j - acc.length) 1 with hlt | hge2
        · have hj0 : j - acc.length = 0 := by omega
          rw [hj0] at hj
          simp only [List.get?] at hj
          cases hj
          simp only [McCabeThiele.topStageRecord]
          have hja : j = acc.length := by omega
          by_cases h0 : acc.length = 0
          · simp [hja, h0]
          · have : acc.length + 1 > 1 := by omega
            simp only [this, if_pos]
            have : j ≠ 0 := by omega
            simp [this]
        · have : ([c.topStageRecord vle E (acc.length + 1) x y].get? (j - acc.length)) = none := by
            apply List.get?_eq_none.mpr
            simpa using hge2
          rw [this] at hj
          cases hj
    · exact hacc i r h

theorem bottomLoop_eff (c : McCabeThiele) (vle : VLEFuns) (E : ℚ) :
    ∀ (fuel : Nat) (x ya ye : ℚ) (acc : List BottomStage) res,
      (∀ i r, acc.get? i = some r → r.efficiency = if i = 0 then 1 else E) →
      c.bottomLoop vle E fuel (acc.length + 1) x ya ye acc = some res →
      ∀ i r, res.1.get? i = some r → r.efficiency = if i = 0 then 1 else E := by
  intro fuel
  induction fuel with
  | zero =>
    intro x ya ye acc res hacc h i r hir
    rw [bottomLoop_zero] at h
    cases h
    exact hacc i r hir
  | succ fuel ih =>
    intro x ya ye acc res hacc h i r hir
    rw [bottomLoop_succ] at h
    split at h
    · cases hnx : c.nextXBottom ya x with
      | none => rw [hnx] at h; cases h
      | some nx =>
        rw [hnx] at h
        have hlen : acc.length + 1 + 1 =
            (acc ++ [c.bottomStageRecord vle E (acc.length + 1) x ya ye]).length + 1 := by
          simp
        rw [hlen] at h
        refine ih nx _ _ _ res ?_ h i r hir
        intro j s hj
        by_cases hjl : j < acc.length
        · rw [List.get?_append hjl] at hj
          exact hacc j s hj
        · have hge : acc.length ≤ j := Nat.le_of_not_lt hjl
          rw [List.get?_append_right hge] at hj
          rcases Nat.lt_or_ge (j - acc.length) 1 with hlt | hge2
          · have hj0 : j - acc.length = 0 := by omega
            rw [hj0] at hj
            simp only [List.get?] at hj
            cases hj
            simp only [McCabeThiele.bottomStageRecord]
            by_cases h0 : acc.length = 0
            · have hja : j = 0 := by omega
              simp [hja, h0]
            · have h1 : acc.length + 1 > 1 := by omega
              simp only [h1, if_pos]
              have : j ≠ 0 := by omega
              simp [this]
          · have : ([c.bottomStageRecord vle E (acc.length + 1) x ya ye].get? (j - acc.length)) = none := by
              apply List.get?_eq_none.mpr
              simpa using hge2
            rw [this] at hj
            cases hj
    · cases h
      exact hacc i r hir

theorem calculate_from_top_all_tr (c : McCabeThiele) (h : c.total_reflux = true)
    (vle : VLEFuns) (E : ℚ) :
    ((c.calculate_from_top vle E).all fun r => r.sect == "全回流段") = true := by
  have hloop := topLoop_all_sect c vle E h 150 1 c.x_D c.x_D [] (by simp)
  rw [calculate_from_top_eq]
  split
  · rw [List.all_append, Bool.and_eq_true]
    constructor
    · simpa [McCabeThiele.topLoopRun] using hloop
    · simp [McCabeThiele.finalTopRecord, get_section_tr c h]
  · simpa [McCabeThiele.topLoopRun] using hloop

theorem calculate_from_bottom_tr (c : McCabeThiele) (h : c.total_reflux = true)
    (vle : VLEFuns) (E : ℚ) :
    ∃ l, c.calculate_from_bottom vle E = some l ∧
      (l.all fun r => r.sect == "全回流段") = true := by
  obtain ⟨res, hres, hall⟩ := bottomLoop_tr_some c vle E h 150 1 c.x_W
    (vle.yByX c.x_W) (vle.yByX c.x_W) [] (by simp)
  have heq := calculate_from_bottom_eq c vle E res
    (by simpa [McCabeThiele.bottomLoopRun] using hres)
  refine ⟨_, heq, ?_⟩
  split
  · rw [List.all_append, Bool.and_eq_true]
    exact ⟨hall, by simp [McCabeThiele.finalBottomRecord, get_section_tr c h]⟩
  · exact hall

/-! Claim theorems. -/

/-- C1: For every column specification and every equilibrium model, each
directional stage-stepping run terminates with its loop appending at most
150 stage records (the explicit fuel of the loop embeds the source's
150-stage safety counter), whether or not the target composition was
reached; the records accumulated by the loop are returned to the caller
(followed by at most one final crossing record), never discarded.  For the
bottom-up direction this holds whenever the run returns at all (its only
other behaviour is the ZeroDivisionError modelled by `none`, which can only
occur before the bound is exceeded). -/
theorem mccabe_stage_bound (c : McCabeThiele) (vle : VLEFuns) (E : ℚ) :
    (c.topLoopRun vle E).1.length ≤ 150 ∧
    (∃ rest, c.calculate_from_top vle E = (c.topLoopRun vle E).1 ++ rest ∧
      rest.length ≤ 1) ∧
    (c.calculate_from_top vle E).length ≤ 151 ∧
    (∀ res, c.bottomLoopRun vle E = some res →
      res.1.length ≤ 150 ∧
      ∃ rest, c.calculate_from_bottom vle E = some (res.1 ++ rest) ∧ rest.length ≤ 1) := by
  have h1 : (c.topLoopRun vle E).1.length ≤ 150 := by
    simpa using topLoop_length c vle E 150 1 c.x_D c.x_D []
  have h2 : ∃ rest, c.calculate_from_top vle E = (c.topLoopRun vle E).1 ++ rest ∧
      rest.length ≤ 1 := by
    rw [calculate_from_top_eq]
    split
    · exact ⟨_, rfl, by simp⟩
    · exact ⟨[], by simp, by simp⟩
  refine ⟨h1, h2, ?_, ?_⟩
  · obtain ⟨rest, heq, hle⟩ := h2
    rw [heq]
    simp only [List.length_append]
    omega
  · intro res h
    have hlen : res.1.length ≤ 150 := by
      simpa using bottomLoop_length c vle E 150 1 c.x_W (vle.yByX c.x_W) (vle.yByX c.x_W) [] res h
    refine ⟨hlen, ?_⟩
    rw [calculate_from_bottom_eq c vle E res h]
    split
    · exact ⟨_, rfl, by simp⟩
    · exact ⟨[], by simp, by simp⟩

/-- Witness for `mccabe_stage_bound`: the concrete total-reflux column
`cTR` with the constant-vapor equilibrium maps `vleOne`, whose bottom-up
run stops before its first iteration. -/
theorem mccabe_stage_bound_witness :
    cTR.bottomLoopRun vleOne 1 = some ([], 1, 1/10, 1, 1) ∧
    (([], 1, (1:ℚ)/10, (1:ℚ), (1:ℚ)) :
      List BottomStage × Nat × ℚ × ℚ × ℚ).1.length ≤ 150 ∧
    (∃ rest, cTR.calculate_from_bottom vleOne 1 = some ([] ++ rest) ∧ rest.length ≤ 1) := by
  have h : cTR.bottomLoopRun vleOne 1 = some ([], 1, 1/10, 1, 1) := by
    rw [McCabeThiele.bottomLoopRun]
    rw [show (150 : Nat) = 149 + 1 by norm_num, bottomLoop_succ]
    norm_num [vleOne, cTR]
  have hmain := (mccabe_stage_bound cTR vleOne 1).2.2.2 ([], 1, 1/10, 1, 1) h
  exact ⟨h, hmain.1, hmain.2⟩

/-- C2: Constructing with F = D = W = 0 exactly always succeeds in
total-reflux mode: the switch point is set to (x_F, x_F), the top-down
stepping update degenerates to the diagonal (next vapor equals the current
liquid composition), the bottom-up update to the diagonal (next liquid
equals the current actual vapor composition), and every stage record of
either directional run carries the section label "全回流段" (total-reflux),
never the rectifying or stripping label. -/
theorem mccabe_total_reflux_mode (x_D x_W x_F q R : ℚ) (vle : VLEFuns) (E : ℚ) :
    ∃ c, McCabeThiele.init x_D x_W x_F q R 0 0 0 = some c ∧
      c.total_reflux = true ∧
      c.x_intersect = x_F ∧ c.y_intersect = x_F ∧
      (∀ x : ℚ, c.nextYTop x = x) ∧
      (∀ ya x : ℚ, c.nextXBottom ya x = some ya) ∧
      ((c.calculate_from_top vle E).all fun r => r.sect == "全回流段") = true ∧
      ∃ l, c.calculate_from_bottom vle E = some l ∧
        (l.all fun r => r.sect == "全回流段") = true := by
  refine ⟨{ x_D := x_D, x_W := x_W, x_F := x_F, q := q, R := R, D := 0, F := 0, W := 0
            total_reflux := true
            L := 0, V := 0, L_prime := 0, V_prime := 0
            L_over_V := 1, D_xD_over_V := 0
            L_prime_over_V_prime := 1, W_xW_over_V_prime := 0
            x_intersect := x_F, y_intersect := x_F },
    ?_, rfl, rfl, rfl, ?_, ?_, ?_, ?_⟩
  · simp [McCabeThiele.init]
  · intro x
    simp [McCabeThiele.nextYTop]
  · intro ya x
    simp [McCabeThiele.nextXBottom]
  · exact calculate_from_top_all_tr _ rfl vle E
  · exact calculate_from_bottom_tr _ rfl vle E

/-- C10: When the starting state already satisfies the termination
predicate — top-down with x_D ≤ x_W, or bottom-up with the equilibrium
vapor at x_W already at least x_D — the loop body never runs and the run
returns an empty StageLadder with no final crossing record appended and no
error. -/
theorem mccabe_empty_run (c : McCabeThiele) (vle : VLEFuns) (E : ℚ) :
    (c.x_D ≤ c.x_W → c.calculate_from_top vle E = [] ∧
      c.calculate_stages vle "top" E false = .ok (.top [], none)) ∧
    (c.x_D ≤ vle.yByX c.x_W → c.calculate_from_bottom vle E = some [] ∧
      c.calculate_stages vle "bottom" E false = .ok (.bottom [], none)) := by
  constructor
  · intro h
    have hrun : c.topLoopRun vle E = ([], 1, c.x_D, c.x_D) := by
      rw [McCabeThiele.topLoopRun, show (150 : Nat) = 149 + 1 by norm_num, topLoop_succ]
      rw [if_neg (not_lt.mpr h)]
    have htop : c.calculate_from_top vle E = [] := by
      rw [calculate_from_top_eq, hrun]
      simp
    exact ⟨htop, by simp [McCabeThiele.calculate_stages, htop]⟩
  · intro h
    have hrun : c.bottomLoopRun vle E = some ([], 1, c.x_W, vle.yByX c.x_W, vle.yByX c.x_W) := by
      rw [McCabeThiele.bottomLoopRun, show (150 : Nat) = 149 + 1 by norm_num, bottomLoop_succ]
      rw [if_neg (not_lt.mpr h)]
    have hbot : c.calculate_from_bottom vle E = some [] := by
      rw [calculate_from_bottom_eq c vle E _ hrun]
      simp
    refine ⟨hbot, ?_⟩
    rw [McCabeThiele.calculate_stages]
    rw [if_neg (by decide : ¬("bottom" = "top"))]
    rw [if_pos rfl]
    rw [hbot]
    simp

/-- Witness for `mccabe_empty_run`: the column `c10spec` (x_D = 1/20 below
x_W = 1/10) with the maps `vleOne` (equilibrium vapor constantly 1). -/
theorem mccabe_empty_run_witness :
    (c10spec.calculate_from_top vleOne 1 = [] ∧
      c10spec.calculate_stages vleOne "top" 1 false = .ok (.top [], none)) ∧
    (c10spec.calculate_from_bottom vleOne 1 = some [] ∧
      c10spec.calculate_stages vleOne "bottom" 1 false = .ok (.bottom [], none)) := by
  have h := mccabe_empty_run c10spec vleOne 1
  exact ⟨h.1 (by norm_num [c10spec, cTR]), h.2 (by norm_num [c10spec, cTR, vleOne])⟩

/-- C9: `calculate_stages` rejects any direction argument other than "top"
or "bottom" with the invalid-direction configuration error, before any
stepping: the result is the bare error (no partial ladder) and is
independent of the equilibrium maps; for "top" and "bottom" the
invalid-direction error is never produced. -/
theorem mccabe_direction_check (c : McCabeThiele) (vle : VLEFuns) (E : ℚ) (rd : Bool) :
    (∀ s : String, s ≠ "top" → s ≠ "bottom" →
      c.calculate_stages vle s E rd = .error .invalidDirection) ∧
    (∀ (s : String) (vle' : VLEFuns), s ≠ "top" → s ≠ "bottom" →
      c.calculate_stages vle s E rd = c.calculate_stages vle' s E rd) ∧
    (∃ r, c.calculate_stages vle "top" E rd = .ok r) ∧
    c.calculate_stages vle "bottom" E rd ≠ .error .invalidDirection := by
  refine ⟨?_, ?_, ?_, ?_⟩
  · intro s h1 h2
    simp [McCabeThiele.calculate_stages, h1, h2]
  · intro s vle' h1 h2
    simp [McCabeThiele.calculate_stages, h1, h2]
  · exact ⟨_, by rw [McCabeThiele.calculate_stages]; rw [if_pos rfl]⟩
  · rw [McCabeThiele.calculate_stages]
    rw [if_neg (by decide : ¬("bottom" = "top"))]
    rw [if_pos rfl]
    cases c.calculate_from_bottom vle E with
    | none => simp
    | some l => simp

/-- Witness for `mccabe_direction_check`: the direction string "middle" is
rejected with the invalid-direction error for the concrete column `cTR`. -/
theorem mccabe_direction_check_witness :
    cTR.calculate_stages vleSimple "middle" 1 false = .error .invalidDirection ∧
    cTR.calculate_stages vleSimple "middle" 1 false =
      cTR.calculate_stages vleOne "middle" 1 false := by
  have h := mccabe_direction_check cTR vleSimple 1 false
  exact ⟨h.1 "middle" (by decide) (by decide), h.2.1 "middle" vleOne (by decide) (by decide)⟩

/-- C3: In regular mode the switch point is computed in closed form exactly
as the constructor does it: q = 1 gives x_intersect = x_F; q = 0 gives
intersection ordinate x_F and x_intersect = (x_F - D·x_D/V)/(R/(R+1)); any
other q makes (x_intersect, y_intersect) the simultaneous solution of the
q-line through (x_F, x_F) with slope q/(q-1) and the rectifying line; and
in all three cases y_intersect = (R/(R+1))·x_intersect + D·x_D/V with
V = (R+1)·D. -/
theorem mccabe_switch_point (x_D x_W x_F q R D F W : ℚ) (c : McCabeThiele)
    (hreg : ¬(F = 0 ∧ D = 0 ∧ W = 0))
    (hinit : McCabeThiele.init x_D x_W x_F q R D F W = some c) :
    (q = 1 → c.x_intersect = x_F) ∧
    (q = 0 → c.y_intersect = x_F ∧
      c.x_intersect = (x_F - D * x_D / ((R + 1) * D)) / (R / (R + 1))) ∧
    (q ≠ 1 → q ≠ 0 →
      c.y_intersect = (q / (q - 1)) * c.x_intersect + (x_F - (q / (q - 1)) * x_F) ∧
      c.y_intersect = (R / (R + 1)) * c.x_intersect + D * x_D / ((R + 1) * D)) ∧
    c.y_intersect = (R / (R + 1)) * c.x_intersect + D * x_D / ((R + 1) * D) := by
  simp only [McCabeThiele.init, hreg, if_false, reduceIte] at hinit
  split_ifs at hinit with hR hV hVp hq1 hq0 hLV hm
  · obtain rfl : _ = c := Option.some.inj hinit
    refine ⟨fun _ => rfl, fun h0 => absurd (hq1 ▸ h0) (by norm_num), ?_, rfl⟩
    intro h1 _
    exact absurd hq1 h1
  · obtain rfl : _ = c := Option.some.inj hinit
    refine ⟨fun h1 => absurd (hq0 ▸ h1) (by norm_num), ?_, ?_, rfl⟩
    · intro _
      constructor
      · show R / (R + 1) * ((x_F - D * x_D / ((R + 1) * D)) / (R / (R + 1))) +
            D * x_D / ((R + 1) * D) = x_F
        rw [mul_comm, div_mul_cancel₀ _ hLV]
        ring
      · rfl
    · intro _ h0
      exact absurd hq0 h0
  · obtain rfl : _ = c := Option.some.inj hinit
    refine ⟨fun h1 => absurd h1 hq1, fun h0 => absurd h0 hq0, fun _ _ => ⟨?_, rfl⟩, rfl⟩
    show R / (R + 1) *
        ((D * x_D / ((R + 1) * D) - (x_F - q / (q - 1) * x_F)) / (q / (q - 1) - R / (R + 1))) +
        D * x_D / ((R + 1) * D) =
      q / (q - 1) *
        ((D * x_D / ((R + 1) * D) - (x_F - q / (q - 1) * x_F)) / (q / (q - 1) - R / (R + 1))) +
        (x_F - q / (q - 1) * x_F)
    have hkey : (q / (q - 1) - R / (R + 1)) *
        ((D * x_D / ((R + 1) * D) - (x_F - q / (q - 1) * x_F)) / (q / (q - 1) - R / (R + 1))) =
        D * x_D / ((R + 1) * D) - (x_F - q / (q - 1) * x_F) := by
      rw [mul_comm, div_mul_cancel₀ _ hm]
    nlinarith [hkey]

/-- Witness for `mccabe_switch_point`: the regular-mode column `c3spec`
(q = 1/2), whose switch point is (21/50, 29/50). -/
theorem mccabe_switch_point_witness :
    (c3spec.y_intersect = ((1:ℚ)/2 / ((1:ℚ)/2 - 1)) * c3spec.x_intersect +
      ((1:ℚ)/2 - ((1:ℚ)/2 / ((1:ℚ)/2 - 1)) * (1/2)) ∧
      c3spec.y_intersect = ((2:ℚ) / (2 + 1)) * c3spec.x_intersect +
        1 * (9/10) / ((2 + 1) * 1)) ∧
    c3spec.y_intersect = ((2:ℚ) / (2 + 1)) * c3spec.x_intersect + 1 * (9/10) / ((2 + 1) * 1) := by
  have h := mccabe_switch_point (9/10) (1/10) (1/2) (1/2) 2 1 2 1 c3spec
    (by norm_num) (by norm_num [McCabeThiele.init, c3spec])
  exact ⟨h.2.2.1 (by norm_num) (by norm_num), h.2.2.2⟩

theorem interp1dNanFill_outside (xs : List ℚ) (f : ℚ → ℚ) (v : ℚ)
    (h : outsideRange xs v) : interp1dNanFill xs f v = none := by
  obtain ⟨lo, hi, hlo, hhi, hor⟩ := h
  rw [interp1dNanFill, hlo, hhi]
  exact if_pos hor

/-- C5: Every query map of a constructed VLE model returns the NaN sentinel
(`none`) for any input strictly outside the `[min_sample, max_sample]`
interval of that map's input axis — it never clamps and never extrapolates
(this holds for every in-range interpolation behaviour `cubic`); and when
fewer than two relative-volatility samples exist, both alpha maps return
the sentinel for every query instead of failing. -/
theorem vle_out_of_domain (cubic : List ℚ → List ℚ → ℚ → ℚ) (points : List VLEPoint)
    (v : VLE) (hv : v = VLE.init cubic points) (t : ℚ) :
    (outsideRange v.x_values t → v.get_temperature_by_x t = none ∧ v.get_y_by_x t = none) ∧
    (outsideRange v.y_values t → v.get_temperature_by_y t = none ∧ v.get_x_by_y t = none) ∧
    (outsideRange v.temps t → v.get_x_by_temp t = none ∧ v.get_y_by_temp t = none) ∧
    (outsideRange v.alpha_x_values t → v.get_alpha_by_x t = none) ∧
    (outsideRange v.alpha_temps t → v.get_alpha_by_temp t = none) ∧
    (v.alpha_x_values.length < 2 →
      ∀ s : ℚ, v.get_alpha_by_x s = none ∧ v.get_alpha_by_temp s = none) := by
  subst hv
  simp only [VLE.init, VLE.get_temperature_by_x, VLE.get_temperature_by_y, VLE.get_y_by_x,
    VLE.get_x_by_y, VLE.get_x_by_temp, VLE.get_y_by_temp, VLE.get_alpha_by_x,
    VLE.get_alpha_by_temp]
  refine ⟨fun h => ⟨?_, ?_⟩, fun h => ⟨?_, ?_⟩, fun h => ⟨?_, ?_⟩, fun h => ?_, fun h => ?_,
    fun h s => ⟨?_, ?_⟩⟩
  · exact interp1dNanFill_outside _ _ _ h
  · exact interp1dNanFill_outside _ _ _ h
  · exact interp1dNanFill_outside _ _ _ h
  · exact interp1dNanFill_outside _ _ _ h
  · exact interp1dNanFill_outside _ _ _ h
  · exact interp1dNanFill_outside _ _ _ h
  · split
    · split
      · exact interp1dNanFill_outside _ _ _ h
      · rfl
    · rfl
  · split
    · split
      · exact interp1dNanFill_outside _ _ _ h
      · rfl
    · rfl
  · split
    · split
      · rename_i hlen
        exact absurd hlen (by omega)
      · rfl
    · rfl
  · split
    · split
      · rename_i hlen
        exact absurd hlen (by omega)
      · rfl
    · rfl

/-- Witness for `vle_out_of_domain`: querying the two-point dataset at 5
(strictly above the maximal x sample 1) yields the sentinel, and both alpha
maps yield the sentinel since no alpha samples exist. -/
theorem vle_out_of_domain_witness :
    (VLE.init cubic0 vlePoints).get_temperature_by_x 5 = none ∧
    (VLE.init cubic0 vlePoints).get_y_by_x 5 = none ∧
    (VLE.init cubic0 vlePoints).get_alpha_by_x 5 = none ∧
    (VLE.init cubic0 vlePoints).get_alpha_by_temp 5 = none := by
  have hout : outsideRange (VLE.init cubic0 vlePoints).x_values 5 := by
    refine ⟨0, 1, ?_, ?_, Or.inr (by norm_num)⟩
    · simp [VLE.init, vlePoints, axisMin, min_def]
    · simp [VLE.init, vlePoints, axisMax, max_def]
  have hlen : (VLE.init cubic0 vlePoints).alpha_x_values.length < 2 := by
    simp [VLE.init, vlePoints]
  have h := vle_out_of_domain cubic0 vlePoints _ rfl 5
  exact ⟨(h.1 hout).1, (h.1 hout).2, (h.2.2.2.2.2 hlen 5).1, (h.2.2.2.2.2 hlen 5).2⟩

theorem bracketTop_eq_none (x_W : ℚ) :
    ∀ (ks : List ℚ) (i : Nat), hasBracketTop x_W ks = false → bracketTop x_W i ks = none := by
  intro ks
  induction ks with
  | nil => intro i _; rfl
  | cons a tail ih =>
    intro i h
    cases tail with
    | nil => rfl
    | cons b rest =>
      rw [hasBracketTop] at h
      rw [Bool.or_eq_false_iff] at h
      obtain ⟨h1, h2⟩ := h
      rw [bracketTop]
      rw [if_neg ?_]
      · exact ih (i + 1) h2
      · rw [Bool.and_eq_false_iff] at h1
        rcases h1 with h1 | h1 <;> simp only [decide_eq_false_iff_not] at h1 <;>
          exact fun hc => h1 (by tauto)

theorem bracketBottom_eq_none (x_D : ℚ) :
    ∀ (ks : List ℚ) (i : Nat), hasBracketBottom x_D ks = false → bracketBottom x_D i ks = none := by
  intro ks
  induction ks with
  | nil => intro i _; rfl
  | cons a tail ih =>
    intro i h
    cases tail with
    | nil => rfl
    | cons b rest =>
      rw [hasBracketBottom] at h
      rw [Bool.or_eq_false_iff] at h
      obtain ⟨h1, h2⟩ := h
      rw [bracketBottom]
      rw [if_neg ?_]
      · exact ih (i + 1) h2
      · rw [Bool.and_eq_false_iff] at h1
        rcases h1 with h1 | h1 <;> simp only [decide_eq_false_iff_not] at h1 <;>
          exact fun hc => h1 (by tauto)

theorem bracketTop_first (x_W : ℚ) :
    ∀ (ks : List ℚ) (i0 k : Nat) (a b : ℚ),
      ks.get? k = some a → ks.get? (k + 1) = some b →
      a ≥ x_W → x_W ≥ b →
      hasBracketTop x_W (ks.take (k + 1)) = false →
      bracketTop x_W i0 ks = some (((i0 + k : ℕ) : ℚ) + (a - x_W) / (a - b)) := by
  intro ks
  induction ks with
  | nil => intro i0 k a b h1 _ _ _ _; cases h1
  | cons a0 tail ih =>
    intro i0 k a b h1 h2 h3 h4 h5
    cases tail with
    | nil =>
      rcases k with _ | k <;> cases h2
    | cons b0 rest =>
      cases k with
      | zero =>
        obtain rfl : a0 = a := by simpa using h1
        obtain rfl : b0 = b := by simpa using h2
        rw [bracketTop, if_pos ⟨h3, h4⟩]
        norm_num
      | succ j =>
        rw [List.take_succ_cons, List.take_succ_cons, hasBracketTop] at h5
        rw [Bool.or_eq_false_iff] at h5
        obtain ⟨hp, htail⟩ := h5
        rw [bracketTop]
        rw [if_neg ?_]
        · have := ih (i0 + 1) j a b (by simpa using h1) (by simpa using h2) h3 h4
            (by simpa [List.take_succ_cons] using htail)
          rw [this]
          congr 1
          push_cast
          ring
        · rw [Bool.and_eq_false_iff] at hp
          rcases hp with hp | hp <;> simp only [decide_eq_false_iff_not] at hp <;>
            exact fun hc => hp (by tauto)

theorem bracketBottom_first (x_D : ℚ) :
    ∀ (ks : List ℚ) (i0 k : Nat) (a b : ℚ),
      ks.get? k = some a → ks.get? (k + 1) = some b →
      a ≤ x_D → x_D ≤ b →
      hasBracketBottom x_D (ks.take (k + 1)) = false →
      bracketBottom x_D i0 ks = some (((i0 + k : ℕ) : ℚ) + (x_D - a) / (b - a)) := by
  intro ks
  induction ks with
  | nil => intro i0 k a b h1 _ _ _ _; cases h1
  | cons a0 tail ih =>
    intro i0 k a b h1 h2 h3 h4 h5
    cases tail with
    | nil =>
      rcases k with _ | k <;> cases h2
    | cons b0 rest =>
      cases k with
      | zero =>
        obtain rfl : a0 = a := by simpa using h1
        obtain rfl : b0 = b := by simpa using h2
        rw [bracketBottom, if_pos ⟨h3, h4⟩]
        norm_num
      | succ j =>
        rw [List.take_succ_cons, List.take_succ_cons, hasBracketBottom] at h5
        rw [Bool.or_eq_false_iff] at h5
        obtain ⟨hp, htail⟩ := h5
        rw [bracketBottom]
        rw [if_neg ?_]
        · have := ih (i0 + 1) j a b (by simpa using h1) (by simpa using h2) h3 h4
            (by simpa [List.take_succ_cons] using htail)
          rw [this]
          congr 1
          push_cast
          ring
        · rw [Bool.and_eq_false_iff] at hp
          rcases hp with hp | hp <;> simp only [decide_eq_false_iff_not] at hp <;>
            exact fun hc => hp (by tauto)

/-- C4: The fractional stage count interpolates linearly at the first
adjacent pair of records bracketing the target: for a top-down ladder the
first pair of liquid compositions with x_i ≥ x_W ≥ x_(i+1) gives
i + (x_i − x_W)/(x_i − x_(i+1)) (symmetrically for a bottom-up ladder, the
actual vapor compositions bracketing x_D give i + (x_D − y_i)/(y_(i+1) − y_i));
the example ladder [0.95, 0.80, 0.60, 0.40, 0.05] with target x_W = 0.5
yields 5/2, strictly inside (2, 3); and with fewer than two records, or no
bracketing pair at all, the integer stage count (the ladder length) is
returned instead of an error. -/
theorem mccabe_decimal_stages (c : McCabeThiele) (xs : List TopStage)
    (ys : List BottomStage) (i : Nat) (a b : ℚ) :
    (McCabeThiele.calculate_decimal_stages_top c4spec c4ladder = 5/2 ∧
      (2 : ℚ) < 5/2 ∧ (5/2 : ℚ) < 3) ∧
    ((xs.map TopStage.x_liquid).get? i = some a →
      (xs.map TopStage.x_liquid).get? (i + 1) = some b →
      a ≥ c.x_W → c.x_W ≥ b →
      hasBracketTop c.x_W ((xs.map TopStage.x_liquid).take (i + 1)) = false →
      c.calculate_decimal_stages_top xs = (i : ℚ) + (a - c.x_W) / (a - b)) ∧
    (xs.length < 2 → c.calculate_decimal_stages_top xs = (xs.length : ℚ)) ∧
    (hasBracketTop c.x_W (xs.map TopStage.x_liquid) = false →
      c.calculate_decimal_stages_top xs = (xs.length : ℚ)) ∧
    ((ys.map BottomStage.y_vapor_actual).get? i = some a →
      (ys.map BottomStage.y_vapor_actual).get? (i + 1) = some b →
      a ≤ c.x_D → c.x_D ≤ b →
      hasBracketBottom c.x_D ((ys.map BottomStage.y_vapor_actual).take (i + 1)) = false →
      c.calculate_decimal_stages_bottom ys = (i : ℚ) + (c.x_D - a) / (b - a)) ∧
    (ys.length < 2 → c.calculate_decimal_stages_bottom ys = (ys.length : ℚ)) ∧
    (hasBracketBottom c.x_D (ys.map BottomStage.y_vapor_actual) = false →
      c.calculate_decimal_stages_bottom ys = (ys.length : ℚ)) := by
  refine ⟨⟨?_, by norm_num, by norm_num⟩, ?_, ?_, ?_, ?_, ?_, ?_⟩
  · norm_num [McCabeThiele.calculate_decimal_stages_top, c4ladder, mkTS, c4spec, cTR,
      bracketTop]
  · intro h1 h2 h3 h4 h5
    have hlt : i + 1 < xs.length := by
      by_contra hc
      rw [List.get?_eq_none.mpr (by simpa using by omega : (xs.map TopStage.x_liquid).length ≤ i + 1)] at h2
      cases h2
    rw [McCabeThiele.calculate_decimal_stages_top, if_neg (by omega)]
    rw [bracketTop_first c.x_W _ 0 i a b h1 h2 h3 h4 h5]
    norm_num
  · intro h
    rw [McCabeThiele.calculate_decimal_stages_top, if_pos h]
  · intro h
    rw [McCabeThiele.calculate_decimal_stages_top]
    split
    · rfl
    · rw [bracketTop_eq_none c.x_W _ 0 h]
  · intro h1 h2 h3 h4 h5
    have hlt : i + 1 < ys.length := by
      by_contra hc
      rw [List.get?_eq_none.mpr (by simpa using by omega : (ys.map BottomStage.y_vapor_actual).length ≤ i + 1)] at h2
      cases h2
    rw [McCabeThiele.calculate_decimal_stages_bottom, if_neg (by omega)]
    rw [bracketBottom_first c.x_D _ 0 i a b h1 h2 h3 h4 h5]
    norm_num
  · intro h
    rw [McCabeThiele.calculate_decimal_stages_bottom, if_pos h]
  · intro h
    rw [McCabeThiele.calculate_decimal_stages_bottom]
    split
    · rfl
    · rw [bracketBottom_eq_none c.x_D _ 0 h]

/-- Witness for `mccabe_decimal_stages`: the bracketing formulas evaluated
on concrete ladders, and the short-ladder fallback on an empty ladder. -/
theorem mccabe_decimal_stages_witness :
    McCabeThiele.calculate_decimal_stages_top c4spec c4ladder = 5/2 ∧
    McCabeThiele.calculate_decimal_stages_top c4spec c4ladder =
      (2 : ℚ) + ((3 : ℚ)/5 - 1/2) / ((3 : ℚ)/5 - 2/5) ∧
    McCabeThiele.calculate_decimal_stages_bottom c4spec c4bladder =
      (1 : ℚ) + ((9 : ℚ)/10 - 3/4) / ((19 : ℚ)/20 - 3/4) ∧
    McCabeThiele.calculate_decimal_stages_top c4spec [] = 0 := by
  refine ⟨(mccabe_decimal_stages c4spec [] [] 0 0 0).1.1, ?_, ?_, ?_⟩
  · have h := (mccabe_decimal_stages c4spec c4ladder [] 2 (3/5) (2/5)).2.1
    have := h (by norm_num [c4ladder, mkTS]) (by norm_num [c4ladder, mkTS])
      (by norm_num [c4spec, cTR]) (by norm_num [c4spec, cTR])
      (by norm_num [c4ladder, mkTS, hasBracketTop, c4spec, cTR])
    simpa [c4spec, cTR] using this
  · have h := (mccabe_decimal_stages c4spec [] c4bladder 1 (3/4) (19/20)).2.2.2.2.1
    have := h (by norm_num [c4bladder, mkBS]) (by norm_num [c4bladder, mkBS])
      (by norm_num [c4spec, cTR]) (by norm_num [c4spec, cTR])
      (by norm_num [c4bladder, mkBS, hasBracketBottom, c4spec, cTR])
    simpa [c4spec, cTR] using this
  · have h := (mccabe_decimal_stages c4spec [] [] 0 0 0).2.2.1
    simpa using h (by norm_num)

/-- C6 counterexample: at a composition exactly equal to the switch point
the two directional algorithms do NOT disagree.  For the concrete
regular-mode column `c6spec` (produced by the constructor), the top-down
branch at x = x_intersect uses the stripping operating line — its value
differs from the rectifying line's value there — the bottom-up branch also
uses the stripping line, and the recorded section label is "提馏段"
(stripping); so the top-down run does not assign the boundary to the other
(rectifying) section as the claim states. -/
theorem mccabe_boundary_counterexample :
    McCabeThiele.init (9/10) (1/5) (1/2) 1 1 1 2 1 = some c6spec ∧
    c6spec.total_reflux = false ∧
    c6spec.nextYTop c6spec.x_intersect =
      c6spec.L_prime_over_V_prime * c6spec.x_intersect - c6spec.W_xW_over_V_prime ∧
    c6spec.nextYTop c6spec.x_intersect ≠
      c6spec.L_over_V * c6spec.x_intersect + c6spec.D_xD_over_V ∧
    c6spec.nextXBottom (1/2) c6spec.x_intersect =
      some ((c6spec.V_prime * (1/2) + c6spec.W * c6spec.x_W) / c6spec.L_prime) ∧
    c6spec.get_section c6spec.x_intersect = "提馏段" := by
  refine ⟨by norm_num [McCabeThiele.init, c6spec], rfl, ?_, ?_, ?_, ?_⟩
  · norm_num [McCabeThiele.nextYTop, c6spec]
  · norm_num [McCabeThiele.nextYTop, c6spec]
  · norm_num [McCabeThiele.nextXBottom, c6spec]
  · norm_num [McCabeThiele.get_section, c6spec]

/-- C6 amended: the boundary behaviour at x = x_intersect is
direction-independent: in regular mode, whenever x ≤ x_intersect (in
particular at x = x_intersect exactly) the top-down branch (the negation of
its test x > x_intersect) and the bottom-up branch (its test
x ≤ x_intersect) both select the stripping operating line, and the section
label is the stripping label — the two tests are logically equivalent. -/
theorem mccabe_boundary_agreement (c : McCabeThiele) (x ya : ℚ)
    (hreg : c.total_reflux = false) (hx : x ≤ c.x_intersect) :
    c.nextYTop x = c.L_prime_over_V_prime * x - c.W_xW_over_V_prime ∧
    c.nextXBottom ya x =
      (if c.L_prime = 0 then none
       else some ((c.V_prime * ya + c.W * c.x_W) / c.L_prime)) ∧
    c.get_section x = "提馏段" := by
  refine ⟨?_, ?_, ?_⟩
  · rw [McCabeThiele.nextYTop, if_neg (by simp [hreg]), if_neg (not_lt.mpr hx)]
  · rw [McCabeThiele.nextXBottom, if_neg (by simp [hreg]), if_pos hx]
  · rw [McCabeThiele.get_section, if_neg (by simp [hreg]), if_neg (not_lt.mpr hx)]

/-- Witness for `mccabe_boundary_agreement`: both stripping-line selections
evaluated at the switch point of the concrete column `c6spec`. -/
theorem mccabe_boundary_agreement_witness :
    c6spec.nextYTop c6spec.x_intersect =
      c6spec.L_prime_over_V_prime * c6spec.x_intersect - c6spec.W_xW_over_V_prime ∧
    c6spec.nextXBottom (3/4) c6spec.x_intersect =
      (if c6spec.L_prime = 0 then none
       else some ((c6spec.V_prime * (3/4) + c6spec.W * c6spec.x_W) / c6spec.L_prime)) ∧
    c6spec.get_section c6spec.x_intersect = "提馏段" :=
  mccabe_boundary_agreement c6spec c6spec.x_intersect (3/4) rfl le_rfl

/-- C8 counterexample: a mixed/partial-zero flow pattern is NOT rejected:
with F = 0 but D = 1 and W = 1 the constructor succeeds, returns a
regular-mode specification, and produces usable operating-line
coefficients. -/
theorem mccabe_flow_validation_counterexample :
    McCabeThiele.init (9/10) (1/5) (1/2) 1 1 1 0 1 =
      some { x_D := 9/10, x_W := 1/5, x_F := 1/2, q := 1, R := 1, D := 1, F := 0, W := 1
             total_reflux := false
             L := 1, V := 2, L_prime := 1, V_prime := 2
             L_over_V := 1/2, D_xD_over_V := 9/20
             L_prime_over_V_prime := 1/2, W_xW_over_V_prime := 1/10
             x_intersect := 1/2, y_intersect := 7/10 } := by
  norm_num [McCabeThiele.init]

/-- C8 amended: the constructor performs no flow-pattern validation.  A
partial-zero pattern with D ≠ 0 (and nonzero derived denominators, here
with a q = 1 feed and R > 0) constructs successfully in regular mode, with
no configuration error; a pattern with D = 0 but F or W nonzero fails, but
only through the untyped division-by-zero of V = (R+1)·D = 0, not through a
distinctly-signaled configuration check. -/
theorem mccabe_flow_validation (x_D x_W x_F R D F W : ℚ) :
    (D ≠ 0 → R + 1 ≠ 0 →
      ∃ c, McCabeThiele.init x_D x_W x_F 1 R D F W = some c ∧ c.total_reflux = false) ∧
    (D = 0 → ¬(F = 0 ∧ W = 0) →
      McCabeThiele.init x_D x_W x_F 1 R 0 F W = none) := by
  constructor
  · intro hD hR
    have hreg : ¬(F = 0 ∧ D = 0 ∧ W = 0) := fun hc => hD hc.2.1
    have hV : (R + 1) * D ≠ 0 := mul_ne_zero hR hD
    have hVp : (R + 1) * D - (1 - 1) * F ≠ 0 := by simpa using hV
    refine ⟨{ x_D := x_D, x_W := x_W, x_F := x_F, q := 1, R := R, D := D, F := F, W := W
              total_reflux := false
              L := R * D, V := (R + 1) * D
              L_prime := R * D + 1 * F, V_prime := (R + 1) * D - (1 - 1) * F
              L_over_V := R / (R + 1), D_xD_over_V := D * x_D / ((R + 1) * D)
              L_prime_over_V_prime := (R * D + 1 * F) / ((R + 1) * D - (1 - 1) * F)
              W_xW_over_V_prime := W * x_W / ((R + 1) * D - (1 - 1) * F)
              x_intersect := x_F
              y_intersect := R / (R + 1) * x_F + D * x_D / ((R + 1) * D) }, ?_, rfl⟩
    rw [McCabeThiele.init, if_neg hreg]
    rw [if_neg hR, if_neg hV, if_neg hVp, if_pos rfl]
  · intro _ hFW
    have hreg : ¬(F = 0 ∧ (0:ℚ) = 0 ∧ W = 0) := fun hc => hFW ⟨hc.1, hc.2.2⟩
    rw [McCabeThiele.init, if_neg hreg]
    by_cases hR : R + 1 = 0
    · rw [if_pos hR]
    · rw [if_neg hR, if_pos (by ring)]

/-- Witness for `mccabe_flow_validation`: the pattern F = 0, D = 1, W = 1
constructs successfully, and the pattern D = 0, F = 2, W = 1 fails with the
division-by-zero. -/
theorem mccabe_flow_validation_witness :
    (∃ c, McCabeThiele.init (9/10) (1/5) (1/2) 1 1 1 0 1 = some c ∧
      c.total_reflux = false) ∧
    McCabeThiele.init (9/10) (1/5) (1/2) 1 1 0 2 1 = none := by
  constructor
  · exact (mccabe_flow_validation (9/10) (1/5) (1/2) 1 1 0 1).1 (by norm_num) (by norm_num)
  · exact (mccabe_flow_validation (9/10) (1/5) (1/2) 1 0 2 1).2 rfl (by norm_num)

theorem get?_singleton {α : Type} (a r : α) (k : Nat) (h : [a].get? k = some r) :
    k = 0 ∧ r = a := by
  cases k with
  | zero => cases h; exact ⟨rfl, rfl⟩
  | succ k => cases h

theorem topLoopRun_eff (c : McCabeThiele) (vle : VLEFuns) (E : ℚ) :
    ∀ i r, (c.topLoopRun vle E).1.get? i = some r →
      r.efficiency = if i = 0 then 1 else E := by
  have h := topLoop_eff c vle E 150 c.x_D c.x_D [] (fun i r hh => by simp at hh)
  simpa [McCabeThiele.topLoopRun] using h

theorem bottomLoopRun_eff (c : McCabeThiele) (vle : VLEFuns) (E : ℚ)
    (res : List BottomStage × Nat × ℚ × ℚ × ℚ) (h : c.bottomLoopRun vle E = some res) :
    ∀ i r, res.1.get? i = some r → r.efficiency = if i = 0 then 1 else E := by
  refine bottomLoop_eff c vle E 150 c.x_W (vle.yByX c.x_W) (vle.yByX c.x_W) [] res
    (fun i r hh => by simp at hh) ?_
  simpa [McCabeThiele.bottomLoopRun] using h

theorem bottomLoopRun_head (c : McCabeThiele) (vle : VLEFuns) (E : ℚ)
    (res : List BottomStage × Nat × ℚ × ℚ × ℚ) (h : c.bottomLoopRun vle E = some res) :
    res.1 = [] ∨ res.1.get? 0 =
      some (c.bottomStageRecord vle E 1 c.x_W (vle.yByX c.x_W) (vle.yByX c.x_W)) := by
  rw [McCabeThiele.bottomLoopRun, show (150 : Nat) = 149 + 1 by norm_num, bottomLoop_succ] at h
  split at h
  · cases hnx : c.nextXBottom (vle.yByX c.x_W) c.x_W with
    | none => rw [hnx] at h; cases h
    | some nx =>
      rw [hnx] at h
      obtain ⟨t, ht⟩ := bottomLoop_prefix c vle E 149 _ _ _ _ _ res h
      right
      rw [ht]
      rfl
  · obtain rfl : _ = res := Option.some.inj h
    left
    rfl

/-- C7 amended: in both directional runs only the stage-record field is
special-cased for the first stage: the record at index 0 carries efficiency
1 regardless of the caller-supplied value and every later record (final
crossing record included) carries the caller-supplied value; the bottom-up
run additionally starts its first stage at the equilibrium vapor
composition (actual = equilibrium); but the stepping update itself applies
the caller-supplied efficiency in every iteration, including the very first
one — the composition of the second record is the Murphree update of the
first with the caller-supplied efficiency, not with 1. -/
theorem mccabe_first_stage_efficiency (c : McCabeThiele) (vle : VLEFuns) (E : ℚ) :
    (∀ i r, (c.calculate_from_top vle E).get? i = some r →
      r.efficiency = if i = 0 then 1 else E) ∧
    (∀ l, c.calculate_from_bottom vle E = some l →
      (∀ i r, l.get? i = some r → r.efficiency = if i = 0 then 1 else E) ∧
      (∀ r0, l.get? 0 = some r0 → r0.y_vapor_actual = r0.y_vapor_equilibrium)) ∧
    (∀ r0 r1, (c.calculate_from_top vle E).get? 0 = some r0 →
      (c.calculate_from_top vle E).get? 1 = some r1 →
      r1.x_liquid = r0.x_liquid - E * (r0.x_liquid - vle.xByY (c.nextYTop r0.x_liquid))) := by
  refine ⟨?_, ?_, ?_⟩
  · intro i r h
    rw [calculate_from_top_eq] at h
    split at h
    · rename_i hcond
      by_cases hi : i < (c.topLoopRun vle E).1.length
      · rw [List.get?_append hi] at h
        exact topLoopRun_eff c vle E i r h
      · have hge := Nat.le_of_not_lt hi
        rw [List.get?_append_right hge] at h
        obtain ⟨hk, rfl⟩ := get?_singleton _ r _ h
        have hlen : (c.topLoopRun vle E).1.length ≠ 0 := by
          intro h0
          exact hcond.1 (List.length_eq_zero.mp h0)
        have hi0 : i ≠ 0 := by omega
        simp [hi0, McCabeThiele.finalTopRecord]
    · exact topLoopRun_eff c vle E i r h
  · intro l hl
    cases hr : c.bottomLoopRun vle E with
    | none =>
      rw [McCabeThiele.calculate_from_bottom, hr] at hl
      cases hl
    | some res =>
      rw [calculate_from_bottom_eq c vle E res hr] at hl
      obtain rfl : _ = l := Option.some.inj hl
      constructor
      · intro i r h
        split at h
        · rename_i hcond
          by_cases hi : i < res.1.length
          · rw [List.get?_append hi] at h
            exact bottomLoopRun_eff c vle E res hr i r h
          · have hge := Nat.le_of_not_lt hi
            rw [List.get?_append_right hge] at h
            obtain ⟨hk, rfl⟩ := get?_singleton _ r _ h
            have hlen : res.1.length ≠ 0 := fun h0 => hcond.1 (List.length_eq_zero.mp h0)
            have hi0 : i ≠ 0 := by omega
            simp [hi0, McCabeThiele.finalBottomRecord]
        · exact bottomLoopRun_eff c vle E res hr i r h
      · intro r0 h0
        rcases bottomLoopRun_head c vle E res hr with hemp | hhead
        · split at h0
          · rename_i hcond
            exact absurd hemp hcond.1
          · rw [hemp] at h0
            cases h0
        · have hpos : 0 < res.1.length := by
            by_contra hc
            rw [List.get?_eq_none.mpr (by omega)] at hhead
            cases hhead
          split at h0
          · rw [List.get?_append hpos, hhead] at h0
            obtain rfl : _ = r0 := Option.some.inj h0
            rfl
          · rw [hhead] at h0
            obtain rfl : _ = r0 := Option.some.inj h0
            rfl
  · intro r0 r1 h0 h1
    by_cases hc1 : c.x_D > c.x_W
    · have hstep1 : c.topLoopRun vle E =
          c.topLoop vle E 149 2 (c.topNextX vle E c.x_D) (c.nextYTop c.x_D)
            [c.topStageRecord vle E 1 c.x_D c.x_D] := by
        rw [McCabeThiele.topLoopRun, show (150 : Nat) = 149 + 1 by norm_num, topLoop_succ,
          if_pos hc1]
        rfl
      by_cases hc2 : c.topNextX vle E c.x_D > c.x_W
      · have hstep2 : c.topLoopRun vle E =
            c.topLoop vle E 148 3 (c.topNextX vle E (c.topNextX vle E c.x_D))
              (c.nextYTop (c.topNextX vle E c.x_D))
              [c.topStageRecord vle E 1 c.x_D c.x_D,
               c.topStageRecord vle E 2 (c.topNextX vle E c.x_D) (c.nextYTop c.x_D)] := by
          rw [hstep1, show (149 : Nat) = 148 + 1 by norm_num, topLoop_succ, if_pos hc2]
          rfl
        obtain ⟨t, ht⟩ := topLoop_prefix c vle E 148 3
          (c.topNextX vle E (c.topNextX vle E c.x_D))
          (c.nextYTop (c.topNextX vle E c.x_D))
          [c.topStageRecord vle E 1 c.x_D c.x_D,
           c.topStageRecord vle E 2 (c.topNextX vle E c.x_D) (c.nextYTop c.x_D)]
        rw [calculate_from_top_eq] at h0 h1
        split at h0
        · rename_i hcond
          rw [if_pos hcond] at h1
          rw [hstep2, ht] at h0 h1
          simp only [List.cons_append, List.nil_append, List.get?] at h0 h1
          obtain rfl : _ = r0 := Option.some.inj h0
          obtain rfl : _ = r1 := Option.some.inj h1
          simp [McCabeThiele.topStageRecord, McCabeThiele.topNextX]
        · rename_i hcond
          rw [if_neg hcond] at h1
          rw [hstep2, ht] at h0 h1
          simp only [List.cons_append, List.nil_append, List.get?] at h0 h1
          obtain rfl : _ = r0 := Option.some.inj h0
          obtain rfl : _ = r1 := Option.some.inj h1
          simp [McCabeThiele.topStageRecord, McCabeThiele.topNextX]
      · have hloop : c.topLoopRun vle E =
            ([c.topStageRecord vle E 1 c.x_D c.x_D], 2, c.topNextX vle E c.x_D,
              c.nextYTop c.x_D) := by
          rw [hstep1, show (149 : Nat) = 148 + 1 by norm_num, topLoop_succ, if_neg hc2]
        rw [calculate_from_top_eq, hloop] at h0 h1
        rw [if_pos ⟨by simp, not_lt.mp hc2⟩] at h0 h1
        simp only [List.cons_append, List.nil_append, List.get?] at h0 h1
        obtain rfl : _ = r0 := Option.some.inj h0
        obtain rfl : _ = r1 := Option.some.inj h1
        simp [McCabeThiele.topStageRecord, McCabeThiele.finalTopRecord, McCabeThiele.topNextX]
    · have hrun : c.topLoopRun vle E = ([], 1, c.x_D, c.x_D) := by
        rw [McCabeThiele.topLoopRun, show (150 : Nat) = 149 + 1 by norm_num, topLoop_succ,
          if_neg hc1]
      rw [calculate_from_top_eq, hrun] at h0
      simp at h0

theorem cTR_vleLow_top_run :
    cTR.calculate_from_top vleLow (1/2) =
      [cTR.topStageRecord vleLow (1/2) 1 (9/10) (9/10),
       cTR.finalTopRecord vleLow (1/2) 2 (-(11/20)) (9/10)] := by
  have hb : cTR.nextYTop ((9:ℚ)/10) = 9/10 := by
    rw [McCabeThiele.nextYTop, if_pos (show cTR.total_reflux = true from rfl)]
  have ha : cTR.topNextX vleLow (1/2) ((9:ℚ)/10) = -(11/20) := by
    rw [McCabeThiele.topNextX, hb]
    norm_num [vleLow]
  have hrun : cTR.topLoopRun vleLow (1/2) =
      ([cTR.topStageRecord vleLow (1/2) 1 (9/10) (9/10)], 2, -(11/20), 9/10) := by
    rw [McCabeThiele.topLoopRun]
    show cTR.topLoop vleLow (1/2) 150 1 (9/10) (9/10) [] = _
    rw [show (150 : Nat) = 149 + 1 by norm_num, topLoop_succ]
    rw [if_pos (show (9:ℚ)/10 > cTR.x_W by norm_num [cTR])]
    rw [ha, hb, List.nil_append]
    rw [show (149 : Nat) = 148 + 1 by norm_num, topLoop_succ]
    rw [if_neg (show ¬(-((11:ℚ)/20) > cTR.x_W) by norm_num [cTR])]
  rw [calculate_from_top_eq, hrun]
  rw [if_pos ⟨by simp, by norm_num [cTR]⟩]
  rfl

theorem cTR_vleShift_bottom_run :
    cTR.calculate_from_bottom vleShift (1/2) = some
      [cTR.bottomStageRecord vleShift (1/2) 1 (1/10) (6/10) (6/10),
       cTR.bottomStageRecord vleShift (1/2) 2 (6/10) (17/20) (11/10),
       cTR.finalBottomRecord vleShift (1/2) 3 (17/20) (11/10) (27/20)] := by
  have hy0 : vleShift.yByX ((1:ℚ)/10) = 6/10 := by
    norm_num [vleShift]
  have hy1 : vleShift.yByX ((6:ℚ)/10) = 11/10 := by
    norm_num [vleShift]
  have hy2 : vleShift.yByX ((17:ℚ)/20) = 27/20 := by
    norm_num [vleShift]
  have hnx1 : cTR.nextXBottom ((6:ℚ)/10) ((1:ℚ)/10) = some (6/10) := by
    rw [McCabeThiele.nextXBottom, if_pos (show cTR.total_reflux = true from rfl)]
  have hnx2 : cTR.nextXBottom ((17:ℚ)/20) ((6:ℚ)/10) = some (17/20) := by
    rw [McCabeThiele.nextXBottom, if_pos (show cTR.total_reflux = true from rfl)]
  have hrun : cTR.bottomLoopRun vleShift (1/2) =
      some ([cTR.bottomStageRecord vleShift (1/2) 1 (1/10) (6/10) (6/10),
             cTR.bottomStageRecord vleShift (1/2) 2 (6/10) (17/20) (11/10)],
            3, 17/20, 11/10, 27/20) := by
    rw [McCabeThiele.bottomLoopRun]
    show cTR.bottomLoop vleShift (1/2) 150 1 (1/10) (vleShift.yByX (1/10))
      (vleShift.yByX (1/10)) [] = _
    rw [hy0]
    rw [show (150 : Nat) = 149 + 1 by norm_num, bottomLoop_succ]
    rw [if_pos (show (6:ℚ)/10 < cTR.x_D by norm_num [cTR])]
    rw [hnx1]
    dsimp only
    rw [hy1, List.nil_append]
    rw [show (6:ℚ)/10 + 1/2 * ((11:ℚ)/10 - 6/10) = 17/20 by norm_num]
    rw [show (149 : Nat) = 148 + 1 by norm_num, bottomLoop_succ]
    rw [if_pos (show (17:ℚ)/20 < cTR.x_D by norm_num [cTR])]
    rw [hnx2]
    dsimp only
    rw [hy2]
    rw [show (17:ℚ)/20 + 1/2 * ((27:ℚ)/20 - 17/20) = 11/10 by norm_num]
    rw [show (148 : Nat) = 147 + 1 by norm_num, bottomLoop_succ]
    rw [if_neg (show ¬((11:ℚ)/10 < cTR.x_D) by norm_num [cTR])]
    rfl
  rw [calculate_from_bottom_eq cTR vleShift (1/2) _ hrun]
  rw [if_pos ⟨by simp, by norm_num [cTR]⟩]
  rfl

/-- C7 counterexample: the caller-supplied efficiency, not 1.0, is applied
in the stepping formula executed for the first stage.  With the
total-reflux column `cTR`, maps `vleLow` (whose equilibrium inversion is
constantly -2) and murphree_efficiency 1/2, the equilibrium liquid
composition after the first stage is -2, so an efficiency of 1.0 would make
the second stage's liquid composition -2; the run instead produces
-11/20 = 9/10 - (1/2)·(9/10 - (-2)), i.e. the first stepping update already
uses the caller-supplied 1/2. -/
theorem mccabe_first_stage_formula_counterexample :
    vleLow.xByY (cTR.nextYTop (9/10)) = -2 ∧
    ((cTR.calculate_from_top vleLow (1/2)).get? 1).map TopStage.x_liquid = some (-(11/20)) ∧
    ((cTR.calculate_from_top vleLow (1/2)).get? 1).map TopStage.x_liquid ≠ some (-2) ∧
    ((cTR.calculate_from_top vleLow (1/2)).get? 1).map TopStage.x_liquid =
      some ((9 : ℚ)/10 - (1/2) * ((9 : ℚ)/10 - vleLow.xByY (cTR.nextYTop (9/10)))) := by
  have hx : vleLow.xByY (cTR.nextYTop (9/10)) = -2 := by
    norm_num [vleLow, McCabeThiele.nextYTop, cTR]
  have hmap : ((cTR.calculate_from_top vleLow (1/2)).get? 1).map TopStage.x_liquid =
      some (-(11/20)) := by
    rw [cTR_vleLow_top_run]
    rfl
  refine ⟨hx, hmap, ?_, ?_⟩
  · rw [hmap]
    intro hc
    have := Option.some.inj hc
    norm_num at this
  · rw [hmap, hx]
    norm_num

/-- Witness for `mccabe_first_stage_efficiency`: concrete two-stage
top-down and three-stage bottom-up runs of the column `cTR`, exhibiting the
first-record efficiency 1, the later-record efficiency 1/2, the equilibrium
initialization of the bottom run's first stage, and the Murphree update
with efficiency 1/2 between the first two top-down records. -/
theorem mccabe_first_stage_efficiency_witness :
    (cTR.topStageRecord vleLow (1/2) 1 (9/10) (9/10)).efficiency = 1 ∧
    (cTR.finalTopRecord vleLow (1/2) 2 (-(11/20)) (9/10)).efficiency = 1/2 ∧
    (cTR.bottomStageRecord vleShift (1/2) 1 (1/10) (6/10) (6/10)).efficiency = 1 ∧
    (cTR.bottomStageRecord vleShift (1/2) 2 (6/10) (17/20) (11/10)).efficiency = 1/2 ∧
    (cTR.bottomStageRecord vleShift (1/2) 1 (1/10) (6/10) (6/10)).y_vapor_actual =
      (cTR.bottomStageRecord vleShift (1/2) 1 (1/10) (6/10) (6/10)).y_vapor_equilibrium ∧
    (cTR.finalTopRecord vleLow (1/2) 2 (-(11/20)) (9/10)).x_liquid =
      (cTR.topStageRecord vleLow (1/2) 1 (9/10) (9/10)).x_liquid -
        (1/2) * ((cTR.topStageRecord vleLow (1/2) 1 (9/10) (9/10)).x_liquid -
          vleLow.xByY (cTR.nextYTop
            (cTR.topStageRecord vleLow (1/2) 1 (9/10) (9/10)).x_liquid)) := by
  have htop := mccabe_first_stage_efficiency cTR vleLow (1/2)
  have hbot := (mccabe_first_stage_efficiency cTR vleShift (1/2)).2.1 _ cTR_vleShift_bottom_run
  refine ⟨?_, ?_, ?_, ?_, ?_, ?_⟩
  · have := htop.1 0 _ (by rw [cTR_vleLow_top_run]; rfl)
    simpa using this
  · have := htop.1 1 _ (by rw [cTR_vleLow_top_run]; rfl)
    simpa using this
  · have := hbot.1 0 _ rfl
    simpa using this
  · have := hbot.1 1 _ rfl
    simpa using this
  · exact hbot.2 _ rfl
  · exact htop.2.2 _ _ (by rw [cTR_vleLow_top_run]; rfl) (by rw [cTR_vleLow_top_run]; rfl)

end Chemetk
